import Mathlib

/-!
Verification of the Wish / Spella CLI helper (src/main.py).

The Python source is shallowly embedded: pure functions become Lean
functions on `Int` / `Nat` / `String`; functions that raise exceptions
return `Except String α`; methods that mutate the store become functions
returning `Except String α × WishSpellStore`, where the second component
is the (possibly unchanged) store after the call, mirroring that a raised
Python exception leaves the object as it was at the raise point.
Python's floor division `//` on ints is `Int.fdiv`.
-/

namespace Wish

/-! ### Constants (src/main.py lines 21-33) -/

def SPEL_BPS_BASE : Int := 10000

def SPEL_MAX_FEE_BPS : Int := 350

def SPEL_MAX_SPELLS : Nat := 128

def HEX_PREFIX : String := "0x"

def ZERO_ADDRESS : String := "0x0000000000000000000000000000000000000000"

/-! ### Fee and price calculations (src/main.py lines 67-75)

`compute_fee_wei` raises `ValueError` when `fee_bps > SPEL_MAX_FEE_BPS`,
otherwise returns `(price_wei * fee_bps) // SPEL_BPS_BASE` (Python floor
division, i.e. `Int.fdiv`). -/

def compute_fee_wei (price_wei fee_bps : Int) : Except String Int :=
  if fee_bps > SPEL_MAX_FEE_BPS then
    Except.error "fee_bps must be <= 350"
  else
    Except.ok ((price_wei * fee_bps).fdiv SPEL_BPS_BASE)

def compute_seller_receives (price_wei fee_bps : Int) : Except String Int := do
  let fee ← compute_fee_wei price_wei fee_bps
  return price_wei - fee

/-! ### CLI fee command (src/main.py lines 177-188)

`cmd_fee` validates the parsed integer arguments before calling the core
functions: a negative price, a negative fee, or a fee above the maximum is
rejected with an error message and exit code 1.  We model the command after
argument parsing as a function from the two integers to either the error
message or the pair (fee, to_seller) that it prints. -/

def cmd_fee (price fee_bps : Int) : Except String (Int × Int) :=
  if price < 0 ∨ fee_bps < 0 ∨ fee_bps > SPEL_MAX_FEE_BPS then
    Except.error "Invalid price or fee_bps (0-350)"
  else do
    let fee ← compute_fee_wei price fee_bps
    let to_seller ← compute_seller_receives price fee_bps
    return (fee, to_seller)

/-! ### Address validation (src/main.py lines 297-301)

```python
def is_valid_address(addr: str) -> bool:
    if not addr or not addr.startswith(HEX_PREFIX):
        return False
    raw = addr[2:].strip()
    return len(raw) == 40 and all(c in "0123456789abcdefABCDEF" for c in raw)
```

Strings are modelled as `List Char`; `str.strip()` removes, from both
ends, exactly the code points CPython's `Py_UNICODE_ISSPACE` accepts:
U+0009–U+000D, U+001C–U+001F, U+0020, U+0085, U+00A0, U+1680,
U+2000–U+200A, U+2028, U+2029, U+202F, U+205F and U+3000 (the set
`[c for c in range(0x110000) if chr(c).isspace()]` on CPython 3.11). -/

def isHexChar (c : Char) : Bool :=
  c ∈ "0123456789abcdefABCDEF".toList

def isPySpace (c : Char) : Bool :=
  (0x9 ≤ c.toNat && c.toNat ≤ 0xd) || c.toNat == 0x20
    || (0x1c ≤ c.toNat && c.toNat ≤ 0x1f)
    || c.toNat == 0x85 || c.toNat == 0xa0 || c.toNat == 0x1680
    || (0x2000 ≤ c.toNat && c.toNat ≤ 0x200a)
    || c.toNat == 0x2028 || c.toNat == 0x2029 || c.toNat == 0x202f
    || c.toNat == 0x205f || c.toNat == 0x3000

def pyStrip (s : List Char) : List Char :=
  ((s.dropWhile isPySpace).reverse.dropWhile isPySpace).reverse

def is_valid_address (addr : List Char) : Bool :=
  if addr = [] ∨ ¬ (HEX_PREFIX.toList.isPrefixOf addr) then
    false
  else
    let raw := pyStrip (addr.drop 2)
    raw.length = 40 && raw.all isHexChar

/-- The spec's wording for address validity, for comparison with
`is_valid_address`: the string starts with "0x" and is followed by exactly
40 hexadecimal characters (case-insensitive) — nothing else. -/
def specValidAddress (addr : List Char) : Bool :=
  HEX_PREFIX.toList.isPrefixOf addr
    && (addr.drop 2).length = 40 && (addr.drop 2).all isHexChar

/-! ### In-memory spell store (src/main.py lines 122-170)

`self._spells` is a Python dict keyed by spell id; it is modelled as an
association list in dict insertion order (`dictInsert` replaces the value
of an existing key in place, and appends a fresh key at the end, as a
Python dict does).  `self._spell_ids` is the list of ids in insertion
order, and `self._counter` the number of spells ever created. -/

structure SpellEntry where
  spell_id : Nat
  seller : String
  title_hash : List Nat
  category_hash : List Nat
  price_wei : Int
  listed_at_block : Int
  listed : Bool
deriving Repr, DecidableEq

def dictInsert (l : List (Nat × SpellEntry)) (k : Nat) (v : SpellEntry) :
    List (Nat × SpellEntry) :=
  match l with
  | [] => [(k, v)]
  | (k', v') :: rest =>
      if k' = k then (k, v) :: rest else (k', v') :: dictInsert rest k v

def dictFind (l : List (Nat × SpellEntry)) (k : Nat) : Option SpellEntry :=
  match l with
  | [] => none
  | (k', v') :: rest => if k' = k then some v' else dictFind rest k

def dictModify (l : List (Nat × SpellEntry)) (k : Nat)
    (f : SpellEntry → SpellEntry) : List (Nat × SpellEntry) :=
  match l with
  | [] => []
  | (k', v') :: rest =>
      if k' = k then (k', f v') :: rest else (k', v') :: dictModify rest k f

structure WishSpellStore where
  spells : List (Nat × SpellEntry)
  counter : Nat
  spell_ids : List Nat
deriving Repr, DecidableEq

def emptyStore : WishSpellStore := ⟨[], 0, []⟩

def list_spell (st : WishSpellStore) (seller : String)
    (title_hash category_hash : List Nat) (price_wei : Int)
    (block : Int) : Except String Nat × WishSpellStore :=
  if st.counter ≥ SPEL_MAX_SPELLS then
    (Except.error "Max spells reached", st)
  else
    let spell_id := st.counter + 1
    let entry : SpellEntry :=
      ⟨spell_id, seller, title_hash, category_hash, price_wei, block, true⟩
    (Except.ok spell_id,
      { spells := dictInsert st.spells spell_id entry,
        counter := st.counter + 1,
        spell_ids := st.spell_ids ++ [spell_id] })

def delist (st : WishSpellStore) (spell_id : Nat) :
    Except String Unit × WishSpellStore :=
  if (dictFind st.spells spell_id).isSome then
    let unlist : SpellEntry → SpellEntry := fun e => { e with listed := false }
    (Except.ok (), { st with spells := dictModify st.spells spell_id unlist })
  else
    (Except.error "Spell not found", st)

def get_spell (st : WishSpellStore) (spell_id : Nat) :
    Except String SpellEntry :=
  match dictFind st.spells spell_id with
  | some e => Except.ok e
  | none => Except.error "Spell not found"

def get_listed_ids (st : WishSpellStore) : List Nat :=
  st.spell_ids.filter (fun s =>
    match dictFind st.spells s with
    | some e => e.listed
    | none => false)

def get_spell_ids (st : WishSpellStore) : List Nat :=
  st.spell_ids

/-! ### Traces of store operations

Reachable states are those obtained from the empty store by a sequence of
`list_spell` / `delist` calls.  `runFrom` also collects the ids returned
by the successful inserts along the way. -/

inductive Op where
  | insert (seller : String) (th ch : List Nat) (price : Int) (block : Int)
  | delist (id : Nat)

def applyOp (st : WishSpellStore) : Op → WishSpellStore
  | .insert s th ch p b => (list_spell st s th ch p b).2
  | .delist id => (Wish.delist st id).2

/-- Final store and list of ids handed out by successful inserts. -/
def runFrom (st : WishSpellStore) : List Op → WishSpellStore × List Nat
  | [] => (st, [])
  | .insert s th ch p b :: rest =>
      let r := list_spell st s th ch p b
      let rec' := runFrom r.2 rest
      match r.1 with
      | .ok id => (rec'.1, id :: rec'.2)
      | .error _ => (rec'.1, rec'.2)
  | .delist id :: rest => runFrom (Wish.delist st id).2 rest

def run (ops : List Op) : WishSpellStore := (runFrom emptyStore ops).1

def assignedIds (ops : List Op) : List Nat := (runFrom emptyStore ops).2

/-- `recordPreserved st op id = true` when applying `op` to `st` does not
reassign id `id` to a different record: an entry present before is still
present afterwards with all fields unchanged except possibly its `listed`
flag, which may only drop to `false`. -/
def recordPreserved (st : WishSpellStore) (op : Op) (id : Nat) : Bool :=
  match dictFind st.spells id, dictFind (applyOp st op).spells id with
  | some e, some e' =>
      e'.spell_id = e.spell_id && e'.seller = e.seller
        && e'.title_hash = e.title_hash && e'.category_hash = e.category_hash
        && e'.price_wei = e.price_wei && e'.listed_at_block = e.listed_at_block
        && (e'.listed = e.listed || e'.listed = false)
  | some _, none => false
  | none, _ => true

/-! ### Configuration loading (src/main.py lines 82-103)

```python
def load_config(path=None) -> WishConfig:
    cfg = WishConfig()
    if os.path.isfile(path):
        try:
            data = json.load(f)
            cfg.contract_address = data.get("contractAddress", "")
            cfg.rpc_url = data.get("rpcUrl", "")
            cfg.chain_id = int(data.get("chainId", 1))
            cfg.fee_bps = int(data.get("feeBps", 12))
        except Exception:
            pass
    return cfg
```

The file system is abstracted into the outcome of reading the file:
`none` = the file does not exist, `some none` = `json.load` raised,
`some (some j)` = the parsed JSON value `j` (numbers restricted to
integers).  `data.get` raises `AttributeError` unless the value is an
object; `int(v)` succeeds on numbers and booleans, parses strings as
optionally whitespace-padded, optionally signed, underscore-grouped runs
of Unicode decimal digits, and raises otherwise.  The dataclass fields
`contract_address`
and `rpc_url` are untyped at runtime, so they hold whatever JSON value
`data.get` returned; they are modelled as `Json`. -/

inductive Json where
  | null
  | bool (b : Bool)
  | num (n : Int)
  | str (s : String)
  | arr (xs : List Json)
  | obj (fields : List (String × Json))
deriving Repr, Inhabited

structure WishConfig where
  contract_address : Json
  rpc_url : Json
  chain_id : Int
  fee_bps : Int
deriving Repr

def defaultConfig : WishConfig := ⟨Json.str "", Json.str "", 1, 12⟩

/-- Python `data.get(key, dflt)`: raises `AttributeError` when `data` is
not a dict. -/
def pyGet (data : Json) (key : String) (dflt : Json) : Except String Json :=
  match data with
  | .obj fields => Except.ok ((fields.lookup key).getD dflt)
  | _ => Except.error "AttributeError"

/-- Start of each run of ten consecutive Unicode decimal digits (category
Nd, decimal values 0–9 in order) that CPython's `int()` converts; the list
is `[c for c in range(0x110000) if unicodedata.decimal(chr(c), -1) == 0]`
on CPython 3.11, where every run was checked to be ten aligned points. -/
def pyDigitRangeStarts : List Nat := [
  0x30, 0x660, 0x6f0, 0x7c0, 0x966, 0x9e6, 0xa66, 0xae6,
  0xb66, 0xbe6, 0xc66, 0xce6, 0xd66, 0xde6, 0xe50, 0xed0,
  0xf20, 0x1040, 0x1090, 0x17e0, 0x1810, 0x1946, 0x19d0, 0x1a80,
  0x1a90, 0x1b50, 0x1bb0, 0x1c40, 0x1c50, 0xa620, 0xa8d0, 0xa900,
  0xa9d0, 0xa9f0, 0xaa50, 0xabf0, 0xff10, 0x104a0, 0x10d30, 0x11066,
  0x110f0, 0x11136, 0x111d0, 0x112f0, 0x11450, 0x114d0, 0x11650, 0x116c0,
  0x11730, 0x118e0, 0x11950, 0x11c50, 0x11d50, 0x11da0, 0x16a60, 0x16ac0,
  0x16b50, 0x1d7ce, 0x1d7d8, 0x1d7e2, 0x1d7ec, 0x1d7f6, 0x1e140, 0x1e2f0,
  0x1e950, 0x1fbf0
]

/-- The decimal value of a character for Python's `int()`, or `none` when
the character is not a Unicode decimal digit. -/
def pyDigitVal (c : Char) : Option Nat :=
  match pyDigitRangeStarts.find? (fun s => s ≤ c.toNat && c.toNat ≤ s + 9) with
  | some s => some (c.toNat - s)
  | none => none

/-- The whitespace `int()` skips around the number: `str.strip()`'s set
minus U+001C–U+001F, which `int()` rejects (checked against CPython 3.11:
`int("\x1c5")` raises ValueError while `int("\xa05")` is 5). -/
def isPyIntSpace (c : Char) : Bool :=
  isPySpace c && !(0x1c ≤ c.toNat && c.toNat ≤ 0x1f)

/-- Digits after the first one: single underscores are allowed only
between two digits (`int("1_0") = 10`, `int("1__0")`, `int("1_")` raise). -/
def parsePyDigitsAux : List Char → Nat → Except String Nat
  | [], acc => Except.ok acc
  | ['_'], _ => Except.error "ValueError"
  | '_' :: c :: rest, acc =>
      match pyDigitVal c with
      | some d => parsePyDigitsAux rest (acc * 10 + d)
      | none => Except.error "ValueError"
  | c :: rest, acc =>
      match pyDigitVal c with
      | some d => parsePyDigitsAux rest (acc * 10 + d)
      | none => Except.error "ValueError"

/-- A nonempty digit run that must start with a digit (no leading
underscore). -/
def parsePyDigits (l : List Char) : Except String Nat :=
  match l with
  | [] => Except.error "ValueError"
  | c :: rest =>
      match pyDigitVal c with
      | some d => parsePyDigitsAux rest d
      | none => Except.error "ValueError"

/-- Python `int(s)` on a string: strip the whitespace `int()` accepts,
then an optional single sign, then a nonempty underscore-grouped run of
Unicode decimal digits. -/
def pyIntOfString (s : String) : Except String Int :=
  let t := ((s.toList.dropWhile isPyIntSpace).reverse.dropWhile
    isPyIntSpace).reverse
  match t with
  | '+' :: rest => (parsePyDigits rest).map (fun n => (n : Int))
  | '-' :: rest => (parsePyDigits rest).map (fun n => -(n : Int))
  | rest => (parsePyDigits rest).map (fun n => (n : Int))

/-- Python `int(v)` on a JSON-decoded value. -/
def pyInt (v : Json) : Except String Int :=
  match v with
  | .num n => Except.ok n
  | .bool b => Except.ok (if b then 1 else 0)
  | .str s => pyIntOfString s
  | _ => Except.error "TypeError"

/-- `load_config`, as a function of the outcome of reading the file.  The
four assignments of the `try` block run in order; the first raised
exception aborts the block, keeping the assignments already made. -/
def load_config (file : Option (Option Json)) : WishConfig :=
  match file with
  | none => defaultConfig
  | some none => defaultConfig
  | some (some data) =>
    match pyGet data "contractAddress" (Json.str "") with
    | .error _ => defaultConfig
    | .ok v1 =>
      let c1 := { defaultConfig with contract_address := v1 }
      match pyGet data "rpcUrl" (Json.str "") with
      | .error _ => c1
      | .ok v2 =>
        let c2 := { c1 with rpc_url := v2 }
        match (pyGet data "chainId" (Json.num 1)).bind pyInt with
        | .error _ => c2
        | .ok n3 =>
          let c3 := { c2 with chain_id := n3 }
          match (pyGet data "feeBps" (Json.num 12)).bind pyInt with
          | .error _ => c3
          | .ok n4 => { c3 with fee_bps := n4 }

/-- Whether the top-level JSON value is a dict. -/
def Json.isObj : Json → Bool
  | .obj _ => true
  | _ => false

/-- Invariant of reachable stores: the id list is `[1, …, counter]` and
the dict holds exactly those keys, in the same order. -/
def StoreInv (st : WishSpellStore) : Prop :=
  st.spell_ids = List.range' 1 st.counter ∧
  st.spells.map Prod.fst = st.spell_ids

/-- `n` consecutive `list_spell` calls with fixed arguments; the flag is
`true` iff every call succeeded. -/
def insertRun : Nat → WishSpellStore → Bool × WishSpellStore
  | 0, st => (true, st)
  | n + 1, st =>
      match list_spell st "s" [] [] 1 0 with
      | (.ok _, st') => insertRun n st'
      | (.error _, st') => (false, st')

/-! ## Theorems -/

/-- Helper: for a fee within the platform maximum, `compute_fee_wei`
returns the floor quotient. -/
theorem compute_fee_wei_ok {b : Int} (p : Int) (hb : b ≤ 350) :
    compute_fee_wei p b = Except.ok ((p * b).fdiv 10000) := by
  simp [compute_fee_wei, SPEL_MAX_FEE_BPS, SPEL_BPS_BASE, not_lt.mpr hb]

/-- C1: for every price `p ≥ 0` and fee basis points `0 ≤ b ≤ 350`, the
fee and the seller-receives amount both compute successfully and sum to
exactly `p`. -/
theorem fee_plus_seller_receives_eq_price (p b : Int) (hp : 0 ≤ p)
    (hb0 : 0 ≤ b) (hb : b ≤ 350) :
    ∃ fee recv, compute_fee_wei p b = Except.ok fee ∧
      compute_seller_receives p b = Except.ok recv ∧ fee + recv = p := by
  refine ⟨(p * b).fdiv 10000, p - (p * b).fdiv 10000, compute_fee_wei_ok p hb, ?_, by ring⟩
  simp [compute_seller_receives, compute_fee_wei_ok p hb, Except.bind]

/-- Witness for C1 at the spec's scenario price 1000000, fee 12 bps. -/
theorem fee_plus_seller_receives_eq_price_witness :
    ∃ fee recv, compute_fee_wei 1000000 12 = Except.ok fee ∧
      compute_seller_receives 1000000 12 = Except.ok recv ∧
      fee + recv = 1000000 :=
  fee_plus_seller_receives_eq_price 1000000 12 (by decide) (by decide) (by decide)

/-- C2: `compute_fee_wei p b` fails with the invalid-argument error
exactly when `b > 350`; otherwise it returns the floor of `p * b / 10000`
in exact integer arithmetic (the returned `q` satisfies
`10000 * q ≤ p * b < 10000 * (q + 1)`); and on the spec's scenario
`compute_fee_wei 1000000 12 = 1200`,
`compute_seller_receives 1000000 12 = 998800`. -/
theorem compute_fee_wei_spec (p b : Int) :
    (b > 350 → compute_fee_wei p b = Except.error "fee_bps must be <= 350") ∧
    (b ≤ 350 → ∃ q, compute_fee_wei p b = Except.ok q ∧
      10000 * q ≤ p * b ∧ p * b < 10000 * (q + 1)) ∧
    compute_fee_wei 1000000 12 = Except.ok 1200 ∧
    compute_seller_receives 1000000 12 = Except.ok 998800 := by
  refine ⟨fun hgt => ?_, fun hle => ?_, by rfl, by rfl⟩
  · simp [compute_fee_wei, SPEL_MAX_FEE_BPS, hgt]
  · refine ⟨(p * b).fdiv 10000, compute_fee_wei_ok p hle, ?_, ?_⟩
    all_goals
      rw [Int.fdiv_eq_ediv _ (by decide : (0:Int) ≤ 10000)]
      have hdm := Int.ediv_add_emod (p * b) 10000
      have hnn := Int.emod_nonneg (p * b) (by decide : (10000:Int) ≠ 0)
      have hlt := Int.emod_lt_of_pos (p * b) (by decide : (0:Int) < 10000)
      omega

/-- Witness for C2: the error case at fee 400, the success case at
fee 350 with price 123456. -/
theorem compute_fee_wei_spec_witness :
    compute_fee_wei 5 400 = Except.error "fee_bps must be <= 350" ∧
    ∃ q, compute_fee_wei 123456 350 = Except.ok q ∧
      10000 * q ≤ 123456 * 350 ∧ 123456 * 350 < 10000 * (q + 1) :=
  ⟨(compute_fee_wei_spec 5 400).1 (by decide),
   (compute_fee_wei_spec 123456 350).2.1 (by decide)⟩

/-- C9: the CLI fee command rejects a negative price with the
invalid-argument message (exit code 1), for every fee within 0..350. -/
theorem cmd_fee_rejects_negative_price (p b : Int) (hp : p < 0)
    (hb0 : 0 ≤ b) (hb : b ≤ 350) :
    cmd_fee p b = Except.error "Invalid price or fee_bps (0-350)" := by
  simp [cmd_fee, hp]

/-- Witness for C9 at price -1, fee 12. -/
theorem cmd_fee_rejects_negative_price_witness :
    cmd_fee (-1) 12 = Except.error "Invalid price or fee_bps (0-350)" :=
  cmd_fee_rejects_negative_price (-1) 12 (by decide) (by decide) (by decide)

/-- C10: the core `compute_fee_wei` enforces no lower bound on its
arguments: whenever `b ≤ 350` (including negative `b`) it returns
`(p * b) // 10000` without error, it errors exactly when `b > 350`, and a
negative `b` with a positive price yields a negative fee. -/
theorem compute_fee_wei_no_lower_bound (p b : Int) :
    (b ≤ 350 → compute_fee_wei p b = Except.ok ((p * b).fdiv 10000)) ∧
    ((∃ e, compute_fee_wei p b = Except.error e) ↔ b > 350) ∧
    (0 < p → b < 0 → ∀ f, compute_fee_wei p b = Except.ok f → f < 0) := by
  refine ⟨fun hle => compute_fee_wei_ok p hle, ?_, fun hp hb f hf => ?_⟩
  · constructor
    · rintro ⟨e, he⟩
      by_contra hgt
      rw [compute_fee_wei_ok p (not_lt.mp hgt)] at he
      exact absurd he (by simp)
    · intro hgt
      exact ⟨"fee_bps must be <= 350",
        by simp [compute_fee_wei, SPEL_MAX_FEE_BPS, hgt]⟩
  · rw [compute_fee_wei_ok p (le_trans hb.le (by decide))] at hf
    obtain rfl : f = (p * b).fdiv 10000 := by
      simpa using hf.symm
    rw [Int.fdiv_eq_ediv _ (by decide : (0:Int) ≤ 10000)]
    exact Int.ediv_neg' (mul_neg_of_pos_of_neg hp hb) (by decide)

/-- Witness for C10 at price 10000, fee basis points -5: the fee computes
without error and is negative. -/
theorem compute_fee_wei_no_lower_bound_witness :
    compute_fee_wei 10000 (-5) = Except.ok (-5) ∧ ((-5 : Int) < 0) := by
  have h1 := (compute_fee_wei_no_lower_bound 10000 (-5)).1 (by decide)
  have h3 := (compute_fee_wei_no_lower_bound 10000 (-5)).2.2 (by decide)
    (by decide) (-5)
  have h4 : ((10000 : Int) * (-5)).fdiv 10000 = -5 := by decide
  refine ⟨?_, ?_⟩
  · rw [h1, h4]
  · exact h3 (by rw [h1, h4])

/-- Counterexample for C3: the address check strips whitespace from the
part after "0x", so "0x" followed by a space and 40 hex characters is
accepted even though it is not "0x" followed by exactly 40 hexadecimal
characters. -/
theorem is_valid_address_strip_counterexample :
    is_valid_address ("0x 0000000000000000000000000000000000000000".toList)
        = true ∧
    specValidAddress ("0x 0000000000000000000000000000000000000000".toList)
        = false := by
  exact ⟨by decide, by decide⟩

/-- C3 (amended): the address check accepts a string iff it starts with
"0x" and the rest, after stripping leading and trailing whitespace,
consists of exactly 40 hexadecimal characters (case-insensitive); in
particular the zero address is valid and "0x123" is not. -/
theorem is_valid_address_amended :
    (∀ addr : List Char, is_valid_address addr =
      (HEX_PREFIX.toList.isPrefixOf addr
        && ((pyStrip (addr.drop 2)).length = 40
        && (pyStrip (addr.drop 2)).all isHexChar))) ∧
    is_valid_address ZERO_ADDRESS.toList = true ∧
    is_valid_address "0x123".toList = false := by
  refine ⟨fun addr => ?_, by decide, by decide⟩
  by_cases h0 : addr = []
  · subst h0; decide
  · by_cases hp : HEX_PREFIX.toList.isPrefixOf addr = true
    · simp [is_valid_address, h0, hp, List.isPrefixOf_iff_prefix] at *
      simp [hp]
    · simp [is_valid_address, h0, hp, List.isPrefixOf_iff_prefix,
        Bool.not_eq_true] at *
      simp [hp]

/-- Counterexample for C5: a JSON object whose `chainId` cannot be
converted by `int()` makes the load fail midway, yet the returned
configuration keeps the already-assigned `contractAddress` — a partial
configuration, not the default one. -/
theorem load_config_partial_counterexample :
    load_config (some (some (Json.obj
        [("contractAddress", Json.str "X"), ("chainId", Json.null)]))) =
      ⟨Json.str "X", Json.str "", 1, 12⟩ ∧
    pyInt Json.null = Except.error "TypeError" ∧
    (⟨Json.str "X", Json.str "", 1, 12⟩ : WishConfig) ≠ defaultConfig := by
  refine ⟨rfl, rfl, fun h => ?_⟩
  have hc := congrArg WishConfig.contract_address h
  simp [defaultConfig] at hc

/-- C5 (amended): a missing file, an unparseable file, or a file whose
top-level JSON value is not an object yields the default configuration
(contract address "", RPC URL "", chain id 1, fee bps 12); but when the
top level is an object, the four fields are applied in order and a failing
integer conversion of `chainId` keeps the already-applied
`contractAddress` and `rpcUrl`, so a partially-applied configuration can
be returned on a load failure. -/
theorem load_config_amended :
    load_config none = defaultConfig ∧
    load_config (some none) = defaultConfig ∧
    (∀ j : Json, j.isObj = false → load_config (some (some j)) = defaultConfig) ∧
    (∀ (fields : List (String × Json)) (e : String),
      pyInt ((fields.lookup "chainId").getD (Json.num 1)) = Except.error e →
      load_config (some (some (Json.obj fields))) =
        { defaultConfig with
            contract_address := (fields.lookup "contractAddress").getD (Json.str ""),
            rpc_url := (fields.lookup "rpcUrl").getD (Json.str "") }) := by
  refine ⟨rfl, rfl, fun j hj => ?_, fun fields e he => ?_⟩
  · cases j <;> first | rfl | simp [Json.isObj] at hj
  · simp [load_config, pyGet, Except.bind, he]

/-- Witness for C5 (amended): a non-object file yields the defaults; an
object with an unconvertible `chainId` yields the partial configuration. -/
theorem load_config_amended_witness :
    load_config (some (some (Json.arr []))) = defaultConfig ∧
    load_config (some (some (Json.obj
        [("contractAddress", Json.str "Y"), ("chainId", Json.arr [])]))) =
      ⟨Json.str "Y", Json.str "", 1, 12⟩ :=
  ⟨load_config_amended.2.2.1 (Json.arr []) rfl,
   load_config_amended.2.2.2
     [("contractAddress", Json.str "Y"), ("chainId", Json.arr [])]
     "TypeError" rfl⟩

/-! ### Dictionary helper lemmas -/

theorem dictFind_insert_self (l : List (Nat × SpellEntry)) (k : Nat)
    (v : SpellEntry) : dictFind (dictInsert l k v) k = some v := by
  induction l with
  | nil => simp [dictInsert, dictFind]
  | cons p rest ih =>
    obtain ⟨k', v'⟩ := p
    by_cases hk : k' = k
    · subst hk; simp [dictInsert, dictFind]
    · simp [dictInsert, dictFind, hk, ih]

theorem dictFind_insert_ne (l : List (Nat × SpellEntry)) {k j : Nat}
    (v : SpellEntry) (h : j ≠ k) :
    dictFind (dictInsert l k v) j = dictFind l j := by
  induction l with
  | nil => simp [dictInsert, dictFind, Ne.symm h]
  | cons p rest ih =>
    obtain ⟨k', v'⟩ := p
    by_cases hk : k' = k
    · subst hk
      simp [dictInsert, dictFind, Ne.symm h]
    · simp only [dictInsert, if_neg hk, dictFind]
      split <;> simp [ih]

theorem dictInsert_keys_fresh {l : List (Nat × SpellEntry)} {k : Nat}
    (v : SpellEntry) (h : k ∉ l.map Prod.fst) :
    (dictInsert l k v).map Prod.fst = l.map Prod.fst ++ [k] := by
  induction l with
  | nil => rfl
  | cons p rest ih =>
    obtain ⟨k', v'⟩ := p
    simp only [List.map_cons, List.mem_cons] at h
    push_neg at h
    simp [dictInsert, Ne.symm h.1, ih h.2]

theorem dictModify_keys (l : List (Nat × SpellEntry)) (k : Nat)
    (f : SpellEntry → SpellEntry) :
    (dictModify l k f).map Prod.fst = l.map Prod.fst := by
  induction l with
  | nil => rfl
  | cons p rest ih =>
    obtain ⟨k', v'⟩ := p
    by_cases hk : k' = k <;> simp [dictModify, hk, ih]

theorem dictFind_modify (l : List (Nat × SpellEntry)) (k j : Nat)
    (f : SpellEntry → SpellEntry) :
    dictFind (dictModify l k f) j =
      if j = k then (dictFind l k).map f else dictFind l j := by
  induction l with
  | nil => simp [dictModify, dictFind]
  | cons p rest ih =>
    obtain ⟨k', v'⟩ := p
    by_cases hk : k' = k
    · subst hk
      by_cases hj : j = k'
      · subst hj; simp [dictModify, dictFind]
      · simp [dictModify, dictFind, hj, Ne.symm hj]
    · by_cases hj : j = k'
      · subst hj
        simp [dictModify, dictFind, hk]
      · simp [dictModify, dictFind, hk, hj, Ne.symm hj, ih]

theorem dictFind_isSome_iff (l : List (Nat × SpellEntry)) (k : Nat) :
    (dictFind l k).isSome ↔ k ∈ l.map Prod.fst := by
  induction l with
  | nil => simp [dictFind]
  | cons p rest ih =>
    obtain ⟨k', v'⟩ := p
    by_cases hk : k' = k
    · subst hk; simp [dictFind]
    · simp [dictFind, hk, ih, Ne.symm hk]

theorem dictFind_eq_none_of_not_mem {l : List (Nat × SpellEntry)} {k : Nat}
    (h : k ∉ l.map Prod.fst) : dictFind l k = none := by
  cases hf : dictFind l k with
  | none => rfl
  | some e =>
      exact absurd ((dictFind_isSome_iff l k).mp (by simp [hf])) h

/-! ### Store step lemmas -/

theorem list_spell_of_ge {st : WishSpellStore} (s : String)
    (th ch : List Nat) (p b : Int) (h : st.counter ≥ SPEL_MAX_SPELLS) :
    list_spell st s th ch p b = (Except.error "Max spells reached", st) := by
  simp [list_spell, h]

theorem list_spell_of_lt {st : WishSpellStore} (s : String)
    (th ch : List Nat) (p b : Int) (h : st.counter < SPEL_MAX_SPELLS) :
    list_spell st s th ch p b = (Except.ok (st.counter + 1),
      ⟨dictInsert st.spells (st.counter + 1)
          ⟨st.counter + 1, s, th, ch, p, b, true⟩,
        st.counter + 1, st.spell_ids ++ [st.counter + 1]⟩) := by
  simp [list_spell, Nat.not_le.mpr h]

theorem delist_counter (st : WishSpellStore) (id : Nat) :
    (delist st id).2.counter = st.counter := by
  unfold delist
  split <;> rfl

theorem delist_spell_ids (st : WishSpellStore) (id : Nat) :
    (delist st id).2.spell_ids = st.spell_ids := by
  unfold delist
  split <;> rfl

theorem delist_keys (st : WishSpellStore) (id : Nat) :
    (delist st id).2.spells.map Prod.fst = st.spells.map Prod.fst := by
  unfold delist
  split
  · exact dictModify_keys _ _ _
  · rfl

theorem emptyStore_inv : StoreInv emptyStore := ⟨rfl, rfl⟩

theorem counter_not_mem_spell_ids {st : WishSpellStore} (h : StoreInv st) :
    st.counter + 1 ∉ st.spell_ids := by
  rw [h.1]
  intro hm
  obtain ⟨i, hi, hEq⟩ := List.mem_range'.mp hm
  omega

theorem list_spell_inv {st : WishSpellStore} (s : String) (th ch : List Nat)
    (p b : Int) (h : StoreInv st) :
    StoreInv (list_spell st s th ch p b).2 := by
  by_cases hc : st.counter ≥ SPEL_MAX_SPELLS
  · rw [list_spell_of_ge s th ch p b hc]; exact h
  · rw [list_spell_of_lt s th ch p b (Nat.not_le.mp hc)]
    constructor
    · show st.spell_ids ++ [st.counter + 1] = List.range' 1 (st.counter + 1)
      rw [h.1, List.range'_concat]
      simp
      omega
    · show (dictInsert st.spells (st.counter + 1) _).map Prod.fst =
        st.spell_ids ++ [st.counter + 1]
      rw [dictInsert_keys_fresh _ (by rw [h.2]; exact counter_not_mem_spell_ids h),
        h.2]

theorem delist_inv {st : WishSpellStore} (id : Nat) (h : StoreInv st) :
    StoreInv (delist st id).2 := by
  constructor
  · rw [delist_spell_ids, delist_counter]; exact h.1
  · rw [delist_keys, delist_spell_ids]; exact h.2

/-! ### Trace lemmas -/

theorem runFrom_inv (ops : List Op) :
    ∀ st : WishSpellStore, StoreInv st →
      StoreInv (runFrom st ops).1 ∧
      (runFrom st ops).1.spell_ids = st.spell_ids ++ (runFrom st ops).2 := by
  induction ops with
  | nil => exact fun st h => ⟨h, by simp [runFrom]⟩
  | cons op rest ih =>
    intro st h
    cases op with
    | insert s th ch p b =>
      by_cases hc : st.counter ≥ SPEL_MAX_SPELLS
      · have hfail := list_spell_of_ge s th ch p b hc
        simp only [runFrom, hfail]
        obtain ⟨h1, h2⟩ := ih st h
        exact ⟨h1, by simpa using h2⟩
      · have hlt := Nat.not_le.mp hc
        have hsucc := list_spell_of_lt s th ch p b hlt
        simp only [runFrom, hsucc]
        have hinv' : StoreInv (list_spell st s th ch p b).2 :=
          list_spell_inv s th ch p b h
        rw [hsucc] at hinv'
        obtain ⟨h1, h2⟩ := ih _ hinv'
        refine ⟨h1, ?_⟩
        rw [h2]
        simp
    | delist id =>
      simp only [runFrom]
      obtain ⟨h1, h2⟩ := ih _ (delist_inv id h)
      exact ⟨h1, by rw [h2, delist_spell_ids]⟩

theorem run_inv (ops : List Op) : StoreInv (run ops) :=
  (runFrom_inv ops emptyStore emptyStore_inv).1

theorem run_spell_ids (ops : List Op) :
    (run ops).spell_ids = assignedIds ops := by
  have := (runFrom_inv ops emptyStore emptyStore_inv).2
  simpa [run, assignedIds, emptyStore] using this

theorem recordPreserved_of_inv {st : WishSpellStore} (h : StoreInv st)
    (op : Op) (id : Nat) : recordPreserved st op id = true := by
  cases hf : dictFind st.spells id with
  | none => cases op <;> simp [recordPreserved, hf]
  | some e =>
    have hid_mem : id ∈ st.spells.map Prod.fst :=
      (dictFind_isSome_iff _ _).mp (by simp [hf])
    cases op with
    | insert s th ch p b =>
      by_cases hc : st.counter ≥ SPEL_MAX_SPELLS
      · simp [recordPreserved, applyOp, list_spell_of_ge s th ch p b hc, hf]
      · have hsucc := list_spell_of_lt s th ch p b (Nat.not_le.mp hc)
        have hne : id ≠ st.counter + 1 := by
          intro hEq
          apply counter_not_mem_spell_ids h
          rw [← hEq, ← h.2]
          exact hid_mem
        have hafter :
            dictFind (applyOp st (Op.insert s th ch p b)).spells id = some e := by
          simp only [applyOp, hsucc]
          rw [dictFind_insert_ne _ _ hne]
          exact hf
        simp [recordPreserved, hf, hafter]
    | delist did =>
      by_cases hd : (dictFind st.spells did).isSome
      · have hafter : dictFind (applyOp st (Op.delist did)).spells id =
            if id = did then (dictFind st.spells did).map
              (fun e => { e with listed := false }) else some e := by
          simp only [applyOp, delist, if_pos hd]
          rw [dictFind_modify]
          simp [hf]
        by_cases hid : id = did
        · subst hid
          rw [hf] at hafter
          simp only [if_pos rfl, Option.map_some'] at hafter
          simp [recordPreserved, hf, hafter]
        · rw [if_neg hid] at hafter
          simp [recordPreserved, hf, hafter]
      · have hafter : (applyOp st (Op.delist did)).spells = st.spells := by
          simp [applyOp, delist, hd]
        simp [recordPreserved, hf, hafter]

/-- C6: in every store reachable from the empty store, ids are assigned
sequentially starting at 1: the list of ids handed out by the successful
inserts of any trace is exactly `[1, …, counter]` (so the n-th successful
insert returns n); every operation preserves the record already stored at
any id (only the `listed` flag may drop to `false`); and a successful
insert never returns a previously assigned id. -/
theorem store_ids_sequential (ops : List Op) :
    assignedIds ops = List.range' 1 (run ops).counter ∧
    (∀ op id, recordPreserved (run ops) op id = true) ∧
    (∀ (s : String) (th ch : List Nat) (p b : Int) (id : Nat),
      (list_spell (run ops) s th ch p b).1 = Except.ok id →
      id ∉ assignedIds ops) := by
  refine ⟨?_, fun op id => recordPreserved_of_inv (run_inv ops) op id, ?_⟩
  · rw [← run_spell_ids ops]
    exact (run_inv ops).1
  · intro s th ch p b id hok
    by_cases hc : (run ops).counter ≥ SPEL_MAX_SPELLS
    · rw [list_spell_of_ge s th ch p b hc] at hok
      exact absurd hok (by simp)
    · rw [list_spell_of_lt s th ch p b (Nat.not_le.mp hc)] at hok
      simp only [Except.ok.injEq] at hok
      rw [← run_spell_ids ops, ← hok]
      exact counter_not_mem_spell_ids (run_inv ops)

/-- Witness for C6: on the one-insert trace, the assigned ids are
`[1] = range' 1 1`, a later delist preserves record 1, and a further
successful insert returns the fresh id 2. -/
theorem store_ids_sequential_witness :
    assignedIds [Op.insert "a" [] [] 5 0] =
      List.range' 1 (run [Op.insert "a" [] [] 5 0]).counter ∧
    recordPreserved (run [Op.insert "a" [] [] 5 0]) (Op.delist 1) 1 = true ∧
    2 ∉ assignedIds [Op.insert "a" [] [] 5 0] :=
  ⟨(store_ids_sequential [Op.insert "a" [] [] 5 0]).1,
   (store_ids_sequential [Op.insert "a" [] [] 5 0]).2.1 (Op.delist 1) 1,
   (store_ids_sequential [Op.insert "a" [] [] 5 0]).2.2 "b" [] [] 7 0 2 rfl⟩

/-- C7: `delist` and `get` on an id never assigned by an insert both fail
with the not-found error, and the store is returned unchanged. -/
theorem never_assigned_not_found (ops : List Op) (id : Nat)
    (h : id ∉ assignedIds ops) :
    Wish.delist (run ops) id = (Except.error "Spell not found", run ops) ∧
    get_spell (run ops) id = Except.error "Spell not found" := by
  have hfind : dictFind (run ops).spells id = none := by
    apply dictFind_eq_none_of_not_mem
    rw [(run_inv ops).2, run_spell_ids ops]
    exact h
  refine ⟨?_, ?_⟩
  · simp [delist, hfind]
  · simp [get_spell, hfind]

/-- Witness for C7: on the one-insert trace, id 3 was never assigned and
both operations report not-found without touching the store. -/
theorem never_assigned_not_found_witness :
    Wish.delist (run [Op.insert "a" [] [] 5 0]) 3 =
      (Except.error "Spell not found", run [Op.insert "a" [] [] 5 0]) ∧
    get_spell (run [Op.insert "a" [] [] 5 0]) 3 =
      Except.error "Spell not found" :=
  never_assigned_not_found [Op.insert "a" [] [] 5 0] 3 (by decide)

/-- C8: in every reachable store, `get_spell_ids` returns exactly the ids
ever handed out by successful inserts, in insertion order;
`get_listed_ids` contains an id iff its record is present and listed, and
is a sublist of the insertion order; and after an insert returning `id`
followed by `delist id`, the listed ids exclude `id` while the full id
list includes it. -/
theorem listed_ids_spec (ops : List Op) :
    get_spell_ids (run ops) = assignedIds ops ∧
    (∀ id, id ∈ get_listed_ids (run ops) ↔
      ∃ e, dictFind (run ops).spells id = some e ∧ e.listed = true) ∧
    (get_listed_ids (run ops)).Sublist (get_spell_ids (run ops)) ∧
    (∀ (s : String) (th ch : List Nat) (p b : Int) (id : Nat),
      (list_spell (run ops) s th ch p b).1 = Except.ok id →
      id ∉ get_listed_ids (Wish.delist (list_spell (run ops) s th ch p b).2 id).2 ∧
      id ∈ get_spell_ids (Wish.delist (list_spell (run ops) s th ch p b).2 id).2) := by
  refine ⟨run_spell_ids ops, fun id => ?_, List.filter_sublist _, ?_⟩
  · unfold get_listed_ids
    rw [List.mem_filter]
    constructor
    · rintro ⟨hmem, hpred⟩
      cases hff : dictFind (run ops).spells id with
      | none => rw [hff] at hpred; simp at hpred
      | some e =>
          rw [hff] at hpred
          exact ⟨e, rfl, by simpa using hpred⟩
    · rintro ⟨e, he, hl⟩
      have hmem : id ∈ (run ops).spells.map Prod.fst :=
        (dictFind_isSome_iff _ _).mp (by simp [he])
      rw [(run_inv ops).2] at hmem
      exact ⟨hmem, by simp [he, hl]⟩
  · intro s th ch p b id hok
    by_cases hc : (run ops).counter ≥ SPEL_MAX_SPELLS
    · rw [list_spell_of_ge s th ch p b hc] at hok
      exact absurd hok (by simp)
    · have hsucc := list_spell_of_lt s th ch p b (Nat.not_le.mp hc)
      rw [hsucc] at hok
      simp only [Except.ok.injEq] at hok
      subst hok
      rw [hsucc]
      set c := (run ops).counter with hcDef
      set entry : SpellEntry :=
        ⟨c + 1, s, th, ch, p, b, true⟩ with hentry
      have hfind : dictFind
          (dictInsert (run ops).spells (c + 1) entry) (c + 1) = some entry :=
        dictFind_insert_self _ _ _
      constructor
      · simp only [delist, hfind, Option.isSome_some, if_pos]
        unfold get_listed_ids
        rw [List.mem_filter]
        rintro ⟨-, hpred⟩
        rw [show dictFind (dictModify (dictInsert (run ops).spells (c + 1) entry)
              (c + 1) (fun e => { e with listed := false })) (c + 1) =
            some { entry with listed := false } by
          rw [dictFind_modify, if_pos rfl, hfind]; rfl] at hpred
        simp at hpred
      · simp only [delist, hfind, Option.isSome_some, if_pos]
        unfold get_spell_ids
        simp

/-- Witness for C8: on the one-insert trace, inserting (getting id 2) and
then delisting id 2 leaves 2 out of the listed ids but in the full list,
and id 1 is listed iff its record is. -/
theorem listed_ids_spec_witness :
    get_spell_ids (run [Op.insert "a" [] [] 5 0]) =
      assignedIds [Op.insert "a" [] [] 5 0] ∧
    2 ∉ get_listed_ids (Wish.delist
        (list_spell (run [Op.insert "a" [] [] 5 0]) "b" [] [] 7 0).2 2).2 ∧
    2 ∈ get_spell_ids (Wish.delist
        (list_spell (run [Op.insert "a" [] [] 5 0]) "b" [] [] 7 0).2 2).2 :=
  ⟨(listed_ids_spec [Op.insert "a" [] [] 5 0]).1,
   ((listed_ids_spec [Op.insert "a" [] [] 5 0]).2.2.2 "b" [] [] 7 0 2 rfl).1,
   ((listed_ids_spec [Op.insert "a" [] [] 5 0]).2.2.2 "b" [] [] 7 0 2 rfl).2⟩

/-- C4: from the empty store, 128 consecutive inserts all succeed, the
129th insert fails with the capacity error, and — since `delist` never
changes the cumulative counter — delisting any id still leaves the next
insert failing with the capacity error. -/
theorem store_capacity_128 :
    (insertRun 128 emptyStore).1 = true ∧
    (list_spell (insertRun 128 emptyStore).2 "s" [] [] 1 0).1 =
      Except.error "Max spells reached" ∧
    (∀ st : WishSpellStore, ∀ id : Nat,
      (Wish.delist st id).2.counter = st.counter) ∧
    (∀ id : Nat,
      (list_spell (Wish.delist (insertRun 128 emptyStore).2 id).2
          "s" [] [] 1 0).1 = Except.error "Max spells reached") := by
  have hcount : (insertRun 128 emptyStore).2.counter = 128 := by rfl
  refine ⟨by rfl, ?_, fun st id => delist_counter st id, ?_⟩
  · rw [list_spell_of_ge _ _ _ _ _ (by rw [hcount]; decide)]
  · intro id
    rw [list_spell_of_ge _ _ _ _ _
      (by rw [delist_counter, hcount]; decide)]

end Wish
